/-
Verification of the UCES Margin Analyzer (src/master_file_app.py).

Shallow embedding conventions:
* Python floats are modelled as rationals (ℚ); integer quantities as ℤ.
* Python strings are Lean `String`s; character-level operations work on
  `List Char` via `String.toList`.
* `round(x, 2)` is modelled by `round2` (round half to even, Python's
  rounding mode for `round`).
* The Streamlit handlers are modelled as pure functions from their inputs
  and the current record store (a `List Record`) to a `HandlerResult`;
  an exception or a rejected validation leaves the session store
  unchanged (`commitStore`) and skips `save_data` (`didSave`).
-/
import Mathlib

set_option maxHeartbeats 1000000
set_option maxRecDepth 10000

namespace UCES

/-- Round half to even, the tie-breaking rule of Python's `round`. -/
def roundHalfEven (q : ℚ) : ℤ :=
  let f := Rat.floor q
  let r := q - (f : ℚ)
  if r < 1/2 then f
  else if 1/2 < r then f + 1
  else if f % 2 = 0 then f else f + 1

/-- Model of Python `round(x, 2)`. -/
def round2 (q : ℚ) : ℚ := (roundHalfEven (q * 100) : ℚ) / 100

/-- Line 332: `total_huawei = po_huawei_price * req_qty`. -/
def total_huawei (hp : ℚ) (rq : ℤ) : ℚ := hp * (rq : ℚ)

/-- Line 333: `total_subcon = po_subcon_price * subcon_qty`. -/
def total_subcon (sp : ℚ) (sq : ℤ) : ℚ := sp * (sq : ℚ)

/-- Line 334: `profit = total_huawei - total_subcon`. -/
def profit (hp : ℚ) (rq : ℤ) (sp : ℚ) (sq : ℤ) : ℚ :=
  total_huawei hp rq - total_subcon sp sq

/-- Line 335: `margin = (profit / total_huawei * 100) if total_huawei != 0 else 0.0`. -/
def margin (hp : ℚ) (rq : ℤ) (sp : ℚ) (sq : ℤ) : ℚ :=
  if total_huawei hp rq ≠ 0 then profit hp rq sp sq / total_huawei hp rq * 100 else 0

/-- Lines 337-343, the AUTO-FLAG LOGIC, applied to the (unrounded) `margin`
variable. -/
def marginStatusOf (m : ℚ) : String :=
  if m ≥ 30 then "Healthy"
  else if m ≥ 20 then "Below Target"
  else "Loss Risk"

/-- Python whitespace characters stripped by `str.strip()`. -/
def isPyWs (c : Char) : Bool :=
  c = ' ' || c = '\t' || c = '\n' || c = '\r' || c = Char.ofNat 11 || c = Char.ofNat 12

/-- Strip whitespace from both ends of a character list. -/
def stripChars (l : List Char) : List Char :=
  ((l.dropWhile isPyWs).reverse.dropWhile isPyWs).reverse

/-- Model of Python `str.strip()`. -/
def pyStrip (s : String) : String := String.mk (stripChars s.toList)

/-- A calendar date (as in Python `datetime.date`). -/
structure Date where
  year : Nat
  month : Nat
  day : Nat
deriving DecidableEq, Repr

/-- One row of the master table, with the canonical columns of `init_df`
in canonical order.  `dateOfPr` is `none` when the cell holds the
missing-date placeholder. -/
structure Record where
  quotationNo : String
  poHuawei : String
  linkedPrSubcon : String
  dateOfPr : Option Date
  vendorName : String
  project : String
  siteId : String
  lineItems : String
  poHuaweiUnitPrice : ℚ
  requestedQty : ℤ
  total : ℚ
  poSubconUnitPrice : ℚ
  qty : ℤ
  subTotal : ℚ
  profit : ℚ
  marginPct : ℚ
  status : String
  marginReason : String
deriving DecidableEq, Repr

/-- The state of the entry form at submit time (lines 293-323).
`status` is the workflow-status selectbox (Waiting / Process / Rejected /
Claimed). -/
structure FormInput where
  quotation_no : String
  po_huawei : String
  linked_pr : String
  date_pr : Date
  vendor_name : String
  project : String
  site_id : String
  final_line_item : String
  status : String
  po_huawei_price : ℚ
  req_qty : ℤ
  po_subcon_price : ℚ
  subcon_qty : ℤ
  margin_reason : String
deriving DecidableEq, Repr

/-- Line 346: `final_status_text = margin_reason.strip() if
margin_reason.strip() != "" else margin_status`. -/
def final_status_text (inp : FormInput) : String :=
  if pyStrip inp.margin_reason ≠ "" then pyStrip inp.margin_reason
  else marginStatusOf (margin inp.po_huawei_price inp.req_qty inp.po_subcon_price inp.subcon_qty)

/-- Lines 348-367: the `new_row` dict built on submit. -/
def new_row (inp : FormInput) : Record :=
  { quotationNo := inp.quotation_no
    poHuawei := inp.po_huawei
    linkedPrSubcon := inp.linked_pr
    dateOfPr := some inp.date_pr
    vendorName := inp.vendor_name
    project := inp.project
    siteId := inp.site_id
    lineItems := inp.final_line_item
    poHuaweiUnitPrice := inp.po_huawei_price
    requestedQty := inp.req_qty
    total := total_huawei inp.po_huawei_price inp.req_qty
    poSubconUnitPrice := inp.po_subcon_price
    qty := inp.subcon_qty
    subTotal := total_subcon inp.po_subcon_price inp.subcon_qty
    profit := profit inp.po_huawei_price inp.req_qty inp.po_subcon_price inp.subcon_qty
    marginPct := round2 (margin inp.po_huawei_price inp.req_qty inp.po_subcon_price inp.subcon_qty)
    status := final_status_text inp
    marginReason := inp.margin_reason }

/-- Outcome of a UI handler: either the new store contents, or an error
(a validation message shown via `st.error`, or a pandas exception that
aborts the script run). -/
inductive HandlerResult where
  | ok (s : List Record)
  | err (msg : String)
deriving DecidableEq, Repr

/-- Lines 328-331 and 373-374: the add branch of the submit handler.
An empty `po_huawei` is rejected with `st.error`; otherwise `new_row`
is appended via `pd.concat`. -/
def submitAdd (inp : FormInput) (s : List Record) : HandlerResult :=
  if inp.po_huawei = "" then .err "PO Huawei is required!"
  else .ok (s ++ [new_row inp])

/-- Lines 328-331 and 369-370: the edit branch.  The required-field check
runs first; then `df.iloc[k] = new_row` replaces row `k` wholesale, and
raises `IndexError` when `k` is out of range. -/
def submitEdit (k : Nat) (inp : FormInput) (s : List Record) : HandlerResult :=
  if inp.po_huawei = "" then .err "PO Huawei is required!"
  else if k < s.length then .ok (s.set k (new_row inp))
  else .err "IndexError"

/-- Lines 511-513: `df.drop(selected_index)` followed by
`reset_index(drop=True)`.  The store's index is always the range
`0..n-1`, so dropping label `k` removes position `k`; `drop` raises
`KeyError` when the label is absent. -/
def deleteSelected (k : Nat) (s : List Record) : HandlerResult :=
  if k < s.length then .ok (s.eraseIdx k) else .err "KeyError"

/-- The session store after a handler ran: on an error (exception or
rejected validation) `st.session_state.df` was never reassigned. -/
def commitStore (r : HandlerResult) (old : List Record) : List Record :=
  match r with
  | .ok s => s
  | .err _ => old

/-- Whether `save_data()` was reached: it is called only on the success
paths (lines 376, 172, 212, 514). -/
def didSave (r : HandlerResult) : Bool :=
  match r with
  | .ok _ => true
  | .err _ => false

/-- The derived-field consistency predicate of spec §4.1 / §3, stated on a
stored record. -/
def derivedConsistent (r : Record) : Prop :=
  r.total = r.poHuaweiUnitPrice * (r.requestedQty : ℚ) ∧
  r.subTotal = r.poSubconUnitPrice * (r.qty : ℚ) ∧
  r.profit = r.total - r.subTotal ∧
  (r.total = 0 → r.marginPct = 0) ∧
  (r.total ≠ 0 → r.marginPct = round2 (r.profit / r.total * 100))

theorem round2_zero : round2 0 = 0 := by
  with_unfolding_all decide

theorem new_row_consistent (inp : FormInput) : derivedConsistent (new_row inp) := by
  refine ⟨rfl, rfl, rfl, ?_, ?_⟩ <;> intro h
  · have hm : margin inp.po_huawei_price inp.req_qty inp.po_subcon_price inp.subcon_qty = 0 := by
      unfold margin
      rw [if_neg]
      simp only [ne_eq, not_not]
      exact h
    show round2 (margin _ _ _ _) = 0
    rw [hm, round2_zero]
  · show round2 (margin _ _ _ _) = round2 (profit _ _ _ _ / total_huawei _ _ * 100)
    have h' : total_huawei inp.po_huawei_price inp.req_qty ≠ 0 := h
    unfold margin
    rw [if_pos h']

/-- C1: every accepted form submission (create or update) stores
Total = p × q, Sub Total = sp × sq, Profit = Total − Sub Total, and
Margin% = round2 (Profit / Total × 100), with Margin% = 0 when Total = 0. -/
theorem submit_stores_derived_fields (inp : FormInput) (s : List Record)
    (h : inp.po_huawei ≠ "") :
    ∃ r : Record,
      submitAdd inp s = .ok (s ++ [r]) ∧
      (∀ k, k < s.length → submitEdit k inp s = .ok (s.set k r)) ∧
      r.total = inp.po_huawei_price * (inp.req_qty : ℚ) ∧
      r.subTotal = inp.po_subcon_price * (inp.subcon_qty : ℚ) ∧
      r.profit = r.total - r.subTotal ∧
      (r.total = 0 → r.marginPct = 0) ∧
      (r.total ≠ 0 → r.marginPct = round2 (r.profit / r.total * 100)) := by
  obtain ⟨h1, h2, h3, h4, h5⟩ := new_row_consistent inp
  refine ⟨new_row inp, ?_, ?_, h1, h2, h3, h4, h5⟩
  · unfold submitAdd
    rw [if_neg h]
  · intro k hk
    unfold submitEdit
    rw [if_neg h, if_pos hk]

def inpC1 : FormInput :=
  { quotation_no := "Q1"
    po_huawei := "PO-1001"
    linked_pr := ""
    date_pr := ⟨2024, 1, 15⟩
    vendor_name := "Vendor A"
    project := "BD"
    site_id := "S1"
    final_line_item := "Router X5"
    status := "Waiting"
    po_huawei_price := 100
    req_qty := 10
    po_subcon_price := 65
    subcon_qty := 10
    margin_reason := ""
  }

theorem submit_stores_derived_fields_witness :
    inpC1.po_huawei ≠ "" ∧
    ∃ r : Record,
      submitAdd inpC1 [] = .ok ([] ++ [r]) ∧
      (∀ k, k < ([] : List Record).length → submitEdit k inpC1 [] = .ok (List.set [] k r)) ∧
      r.total = inpC1.po_huawei_price * (inpC1.req_qty : ℚ) ∧
      r.subTotal = inpC1.po_subcon_price * (inpC1.subcon_qty : ℚ) ∧
      r.profit = r.total - r.subTotal ∧
      (r.total = 0 → r.marginPct = 0) ∧
      (r.total ≠ 0 → r.marginPct = round2 (r.profit / r.total * 100)) :=
  ⟨by decide, submit_stores_derived_fields inpC1 [] (by decide)⟩

def inpC2 : FormInput :=
  { quotation_no := ""
    po_huawei := "PO-2002"
    linked_pr := ""
    date_pr := ⟨2024, 1, 15⟩
    vendor_name := ""
    project := "---"
    site_id := ""
    final_line_item := ""
    status := "Waiting"
    po_huawei_price := 100
    req_qty := 100
    po_subcon_price := 35002/5
    subcon_qty := 1
    margin_reason := ""
  }

/-- C2 counterexample: with client price 100, quantity 100, subcontractor
price 7000.40, quantity 1, the margin is 29.996; the stored (rounded)
Margin% is exactly 30.00, yet the AUTO-FLAG logic — which runs on the
unrounded margin — assigns "Below Target", not "Healthy".  So the
classification is not a function of the rounded margin with
rounded ≥ 30 ↦ "Healthy". -/
theorem margin_classification_counterexample :
    round2 (margin 100 100 (35002/5) 1) = 30 ∧
    marginStatusOf (margin 100 100 (35002/5) 1) = "Below Target" ∧
    (new_row inpC2).marginPct = 30 ∧
    (new_row inpC2).status = "Below Target" ∧
    "Below Target" ≠ "Healthy" := by
  with_unfolding_all decide

/-- C2 (amended): the margin classification is a pure function of the
UNROUNDED margin percentage: margin ≥ 30 ↦ "Healthy",
20 ≤ margin < 30 ↦ "Below Target", margin < 20 ↦ "Loss Risk", each
bucket's lower bound inclusive; the record stores it (as the Status text)
whenever the margin-reason text is blank. -/
theorem margin_classification_amended (inp : FormInput) (s : List Record)
    (h : inp.po_huawei ≠ "") (hr : pyStrip inp.margin_reason = "") :
    ∃ r : Record,
      submitAdd inp s = .ok (s ++ [r]) ∧
      r.status = marginStatusOf
        (margin inp.po_huawei_price inp.req_qty inp.po_subcon_price inp.subcon_qty) ∧
      (∀ m : ℚ,
        (marginStatusOf m = "Healthy" ↔ 30 ≤ m) ∧
        (marginStatusOf m = "Below Target" ↔ 20 ≤ m ∧ m < 30) ∧
        (marginStatusOf m = "Loss Risk" ↔ m < 20)) := by
  refine ⟨new_row inp, ?_, ?_, ?_⟩
  · unfold submitAdd
    rw [if_neg h]
  · show final_status_text inp = _
    unfold final_status_text
    rw [if_neg]
    simp only [ne_eq, not_not]
    exact hr
  · intro m
    unfold marginStatusOf
    split_ifs with h30 h20
    · refine ⟨⟨fun _ => h30, fun _ => rfl⟩, ?_, ?_⟩ <;>
        constructor <;> intro hx
      · exact absurd hx (by decide)
      · exact absurd h30 (not_le.mpr hx.2)
      · exact absurd hx (by decide)
      · exact absurd hx (not_lt.mpr (le_trans (by norm_num) h30))
    · refine ⟨?_, ⟨fun _ => ⟨h20, not_le.mp h30⟩, fun _ => rfl⟩, ?_⟩ <;>
        constructor <;> intro hx
      · exact absurd hx (by decide)
      · exact absurd hx h30
      · exact absurd hx (by decide)
      · exact absurd hx (not_lt.mpr h20)
    · refine ⟨?_, ?_, ⟨fun _ => not_le.mp h20, fun _ => rfl⟩⟩ <;>
        constructor <;> intro hx
      · exact absurd hx (by decide)
      · exact absurd (le_trans (by norm_num) hx) h20
      · exact absurd hx (by decide)
      · exact absurd hx.1 h20

theorem margin_classification_amended_witness :
    (inpC1.po_huawei ≠ "" ∧ pyStrip inpC1.margin_reason = "") ∧
    ∃ r : Record,
      submitAdd inpC1 [] = .ok ([] ++ [r]) ∧
      r.status = marginStatusOf
        (margin inpC1.po_huawei_price inpC1.req_qty inpC1.po_subcon_price inpC1.subcon_qty) ∧
      (∀ m : ℚ,
        (marginStatusOf m = "Healthy" ↔ 30 ≤ m) ∧
        (marginStatusOf m = "Below Target" ↔ 20 ≤ m ∧ m < 30) ∧
        (marginStatusOf m = "Loss Risk" ↔ m < 20)) :=
  ⟨⟨by decide, by with_unfolding_all decide⟩,
    margin_classification_amended inpC1 [] (by decide) (by with_unfolding_all decide)⟩

theorem eraseIdx_length (l : List Record) (k : Nat) (h : k < l.length) :
    (l.eraseIdx k).length = l.length - 1 := by
  induction l generalizing k with
  | nil => simp at h
  | cons a t ih =>
    cases k with
    | zero => simp [List.eraseIdx]
    | succ k =>
      simp only [List.eraseIdx, List.length_cons]
      rw [ih k (by simpa using h)]
      simp only [List.length_cons] at h
      omega

theorem eraseIdx_get_lt (l : List Record) (k j : Nat) (h : j < k) :
    (l.eraseIdx k)[j]? = l[j]? := by
  induction l generalizing k j with
  | nil => simp [List.eraseIdx]
  | cons a t ih =>
    cases k with
    | zero => omega
    | succ k =>
      cases j with
      | zero => simp [List.eraseIdx]
      | succ j =>
        simp only [List.eraseIdx, List.getElem?_cons_succ]
        exact ih k j (by omega)

theorem eraseIdx_get_ge (l : List Record) (k j : Nat) (h : k ≤ j) :
    (l.eraseIdx k)[j]? = l[j + 1]? := by
  induction l generalizing k j with
  | nil => simp [List.eraseIdx]
  | cons a t ih =>
    cases k with
    | zero => simp [List.eraseIdx]
    | succ k =>
      cases j with
      | zero => omega
      | succ j =>
        simp only [List.eraseIdx, List.getElem?_cons_succ]
        exact ih k j (by omega)

/-- C5: the Delete Selected handler at an in-range position k removes
exactly the record at position k (records below k keep their position,
records above k shift down by one, the length drops by one); at an
out-of-range position `df.drop` raises KeyError before the store is
reassigned, so the store is unchanged and nothing is saved. -/
theorem delete_selected_spec (s : List Record) (k : Nat) :
    (k < s.length →
      deleteSelected k s = .ok (s.eraseIdx k) ∧
      (s.eraseIdx k).length = s.length - 1 ∧
      (∀ j, j < k → (s.eraseIdx k)[j]? = s[j]?) ∧
      (∀ j, k ≤ j → (s.eraseIdx k)[j]? = s[j + 1]?)) ∧
    (s.length ≤ k →
      deleteSelected k s = .err "KeyError" ∧
      commitStore (deleteSelected k s) s = s ∧
      didSave (deleteSelected k s) = false) := by
  constructor
  · intro h
    refine ⟨?_, eraseIdx_length s k h, fun j hj => eraseIdx_get_lt s k j hj,
      fun j hj => eraseIdx_get_ge s k j hj⟩
    unfold deleteSelected
    rw [if_pos h]
  · intro h
    have hn : ¬ k < s.length := by omega
    unfold deleteSelected
    rw [if_neg hn]
    exact ⟨rfl, rfl, rfl⟩

def recA : Record := new_row inpC1

def recB : Record := new_row { inpC1 with quotation_no := "Q2", site_id := "S2" }

def recC : Record := new_row { inpC1 with quotation_no := "Q3", site_id := "S3" }

theorem delete_selected_spec_witness :
    deleteSelected 1 [recA, recB, recC] = .ok ([recA, recB, recC].eraseIdx 1) ∧
    ([recA, recB, recC].eraseIdx 1).length = [recA, recB, recC].length - 1 ∧
    ([recA, recB, recC].eraseIdx 1)[0]? = [recA, recB, recC][0]? ∧
    ([recA, recB, recC].eraseIdx 1)[1]? = [recA, recB, recC][2]? ∧
    commitStore (deleteSelected 5 [recA, recB, recC]) [recA, recB, recC] =
      [recA, recB, recC] := by
  obtain ⟨hin, -⟩ := delete_selected_spec [recA, recB, recC] 1
  obtain ⟨a, b, c, d⟩ := hin (by decide)
  obtain ⟨-, hout⟩ := delete_selected_spec [recA, recB, recC] 5
  exact ⟨a, b, c 0 (by decide), d 1 (by decide), (hout (by decide)).2.1⟩

/-- C6: an update (form submit in edit mode) addressed at an out-of-range
position is a no-op visible to the caller: `df.iloc[k] = new_row` raises
IndexError, the store is left unchanged, no record is replaced, and
nothing is saved. -/
theorem update_out_of_range_noop (k : Nat) (inp : FormInput) (s : List Record)
    (h : s.length ≤ k) :
    commitStore (submitEdit k inp s) s = s ∧
    didSave (submitEdit k inp s) = false ∧
    (inp.po_huawei ≠ "" → submitEdit k inp s = .err "IndexError") := by
  have hn : ¬ k < s.length := by omega
  unfold submitEdit
  by_cases he : inp.po_huawei = ""
  · rw [if_pos he]
    exact ⟨rfl, rfl, fun hne => absurd he hne⟩
  · rw [if_neg he, if_neg hn]
    exact ⟨rfl, rfl, fun _ => rfl⟩

theorem update_out_of_range_noop_witness :
    ([recA] : List Record).length ≤ 3 ∧
    commitStore (submitEdit 3 inpC1 [recA]) [recA] = [recA] ∧
    didSave (submitEdit 3 inpC1 [recA]) = false ∧
    (inpC1.po_huawei ≠ "" → submitEdit 3 inpC1 [recA] = .err "IndexError") :=
  ⟨by decide, update_out_of_range_noop 3 inpC1 [recA] (by decide)⟩

/-- C7: a submission with an empty client PO reference (`Po Huawei`) is
rejected with the `st.error` message, the store is unchanged (on both the
add and the edit path) and `save_data` is not reached; a submission with
a non-empty client PO reference is accepted on the add path (the record
is appended and saved). -/
theorem required_po_field (inp : FormInput) (s : List Record) :
    (inp.po_huawei = "" →
      submitAdd inp s = .err "PO Huawei is required!" ∧
      commitStore (submitAdd inp s) s = s ∧
      didSave (submitAdd inp s) = false ∧
      (∀ k, submitEdit k inp s = .err "PO Huawei is required!" ∧
            commitStore (submitEdit k inp s) s = s ∧
            didSave (submitEdit k inp s) = false)) ∧
    (inp.po_huawei ≠ "" →
      submitAdd inp s = .ok (s ++ [new_row inp]) ∧
      didSave (submitAdd inp s) = true) := by
  constructor
  · intro he
    unfold submitAdd submitEdit
    rw [if_pos he]
    exact ⟨rfl, rfl, rfl, fun k => by rw [if_pos he]; exact ⟨rfl, rfl, rfl⟩⟩
  · intro hne
    unfold submitAdd
    rw [if_neg hne]
    exact ⟨rfl, rfl⟩

def inpEmptyPo : FormInput := { inpC1 with po_huawei := "" }

theorem required_po_field_witness :
    (inpEmptyPo.po_huawei = "" ∧
      submitAdd inpEmptyPo [recA] = .err "PO Huawei is required!" ∧
      commitStore (submitAdd inpEmptyPo [recA]) [recA] = [recA] ∧
      didSave (submitAdd inpEmptyPo [recA]) = false) ∧
    (inpC1.po_huawei ≠ "" ∧
      submitAdd inpC1 [] = .ok ([] ++ [new_row inpC1]) ∧
      didSave (submitAdd inpC1 []) = true) := by
  obtain ⟨hrej, -⟩ := required_po_field inpEmptyPo [recA]
  obtain ⟨-, hacc⟩ := required_po_field inpC1 []
  obtain ⟨a, b, c, -⟩ := hrej (by decide)
  obtain ⟨d, e⟩ := hacc (by decide)
  exact ⟨⟨by decide, a, b, c⟩, ⟨by decide, d, e⟩⟩

/-- C10: on every accepted submission the stored Status field holds the
stripped free-text margin reason when that is non-empty, and otherwise
the margin classification text (one of "Healthy", "Below Target",
"Loss Risk"); the workflow status selected in the form (the
Waiting/Process/Rejected/Claimed selectbox) does not influence the
stored record at all. -/
theorem status_field_reason_semantics (inp : FormInput) (s : List Record)
    (h : inp.po_huawei ≠ "") :
    ∃ r : Record,
      submitAdd inp s = .ok (s ++ [r]) ∧
      (pyStrip inp.margin_reason ≠ "" → r.status = pyStrip inp.margin_reason) ∧
      (pyStrip inp.margin_reason = "" →
        r.status = marginStatusOf
          (margin inp.po_huawei_price inp.req_qty inp.po_subcon_price inp.subcon_qty) ∧
        (r.status = "Healthy" ∨ r.status = "Below Target" ∨ r.status = "Loss Risk")) ∧
      (∀ w : String, submitAdd { inp with status := w } s = submitAdd inp s) := by
  refine ⟨new_row inp, ?_, ?_, ?_, fun w => rfl⟩
  · unfold submitAdd
    rw [if_neg h]
  · intro hne
    show final_status_text inp = _
    unfold final_status_text
    rw [if_pos hne]
  · intro he
    have hs : (new_row inp).status = marginStatusOf
        (margin inp.po_huawei_price inp.req_qty inp.po_subcon_price inp.subcon_qty) := by
      show final_status_text inp = _
      unfold final_status_text
      rw [if_neg (by simpa using he)]
    refine ⟨hs, ?_⟩
    rw [hs]
    unfold marginStatusOf
    split_ifs
    · exact Or.inl rfl
    · exact Or.inr (Or.inl rfl)
    · exact Or.inr (Or.inr rfl)

def inpC10 : FormInput := { inpC1 with margin_reason := "  Vendor raised price  " }

theorem status_field_reason_semantics_witness :
    inpC10.po_huawei ≠ "" ∧
    ∃ r : Record,
      submitAdd inpC10 [] = .ok ([] ++ [r]) ∧
      (pyStrip inpC10.margin_reason ≠ "" → r.status = pyStrip inpC10.margin_reason) ∧
      (pyStrip inpC10.margin_reason = "" →
        r.status = marginStatusOf
          (margin inpC10.po_huawei_price inpC10.req_qty inpC10.po_subcon_price
            inpC10.subcon_qty) ∧
        (r.status = "Healthy" ∨ r.status = "Below Target" ∨ r.status = "Loss Risk")) ∧
      (∀ w : String, submitAdd { inpC10 with status := w } [] = submitAdd inpC10 []) :=
  ⟨by decide, status_field_reason_semantics inpC10 [] (by decide)⟩

/-- The character for a decimal digit. -/
def digitChar (n : Nat) : Char := Char.ofNat (48 + n)

/-- Decimal digit characters of a natural number, most significant first
(the digits of Python's `str(n)`). -/
def natChars (n : Nat) : List Char :=
  if _h : n < 10 then [digitChar n]
  else natChars (n / 10) ++ [digitChar (n % 10)]
termination_by n
decreasing_by
  exact Nat.div_lt_self (by omega) (by omega)

/-- Left-pad with zeros to width k (the %04d/%02d padding of
`str(datetime.date)`). -/
def padZeros (k : Nat) (l : List Char) : List Char :=
  List.replicate (k - l.length) '0' ++ l

/-- Numeric value of a digit character. -/
def charVal (c : Char) : Nat := c.toNat - 48

/-- One folding step of decimal parsing. -/
def stepDigit (a : Nat) (c : Char) : Nat := a * 10 + charVal c

/-- Decimal value of a digit string. -/
def charsToNat (l : List Char) : Nat := l.foldl stepDigit 0

/-- Split a character list on the dash separator. -/
def splitDash : List Char → List (List Char)
  | [] => [[]]
  | c :: rest =>
    if c = '-' then [] :: splitDash rest
    else
      match splitDash rest with
      | [] => [[c]]
      | g :: gs => (c :: g) :: gs

/-- ISO serialization of a calendar date: `str(datetime.date)` gives
`YYYY-MM-DD` with zero padding. -/
def dateChars (d : Date) : List Char :=
  padZeros 4 (natChars d.year) ++ '-' ::
    (padZeros 2 (natChars d.month) ++ '-' :: padZeros 2 (natChars d.day))

/-- Model of `pd.to_datetime(s, errors="coerce")` restricted to the
dash-separated numeric format the app itself writes; anything else
(including the empty missing-date placeholder) coerces to `NaT`,
modelled as `none`. -/
def parseDateChars (l : List Char) : Option Date :=
  match splitDash l with
  | [a, b, c] =>
    if a ≠ [] ∧ b ≠ [] ∧ c ≠ [] ∧ a.all Char.isDigit ∧ b.all Char.isDigit ∧ c.all Char.isDigit
    then some ⟨charsToNat a, charsToNat b, charsToNat c⟩
    else none
  | _ => none

theorem charVal_digitChar (n : Nat) (h : n < 10) : charVal (digitChar n) = n := by
  interval_cases n <;> decide

theorem digitChar_isDigit (n : Nat) (h : n < 10) : (digitChar n).isDigit = true := by
  interval_cases n <;> decide

theorem natChars_all_digits (n : Nat) : ∀ c ∈ natChars n, c.isDigit = true := by
  induction n using Nat.strong_induction_on with
  | _ n ih =>
    by_cases h : n < 10
    · rw [natChars, dif_pos h]
      intro c hc
      rw [List.mem_singleton] at hc
      subst hc
      exact digitChar_isDigit n h
    · rw [natChars, dif_neg h]
      intro c hc
      rw [List.mem_append] at hc
      rcases hc with hc | hc
      · exact ih (n / 10) (Nat.div_lt_self (by omega) (by omega)) c hc
      · rw [List.mem_singleton] at hc
        subst hc
        exact digitChar_isDigit _ (Nat.mod_lt n (by omega))

theorem natChars_ne_nil (n : Nat) : natChars n ≠ [] := by
  by_cases h : n < 10
  · rw [natChars, dif_pos h]
    simp
  · rw [natChars, dif_neg h]
    simp

theorem foldl_natChars (n : Nat) :
    ∀ a : Nat, (natChars n).foldl stepDigit a = a * 10 ^ (natChars n).length + n := by
  induction n using Nat.strong_induction_on with
  | _ n ih =>
    intro a
    by_cases h : n < 10
    · rw [natChars, dif_pos h]
      simp [stepDigit, charVal_digitChar n h]
    · rw [natChars, dif_neg h]
      rw [List.foldl_append, List.length_append, ih (n / 10) (Nat.div_lt_self (by omega) (by omega))]
      simp only [List.length_cons, List.length_nil, List.foldl_cons, List.foldl_nil]
      rw [stepDigit, charVal_digitChar _ (Nat.mod_lt n (by omega))]
      rw [pow_succ]
      have hmod := Nat.div_add_mod n 10
      ring_nf
      omega

theorem foldl_zeros (m : Nat) : (List.replicate m '0').foldl stepDigit 0 = 0 := by
  induction m with
  | zero => rfl
  | succ m ih =>
    rw [List.replicate_succ, List.foldl_cons]
    have : stepDigit 0 '0' = 0 := by decide
    rw [this, ih]

theorem charsToNat_padZeros_natChars (k n : Nat) :
    charsToNat (padZeros k (natChars n)) = n := by
  unfold charsToNat padZeros
  rw [List.foldl_append, foldl_zeros, foldl_natChars]
  simp

theorem splitDash_no_dash (l : List Char) (h : ∀ c ∈ l, c ≠ '-') :
    splitDash l = [l] := by
  induction l with
  | nil => rfl
  | cons c t ih =>
    have hc : c ≠ '-' := h c (by simp)
    rw [splitDash, if_neg hc, ih (fun x hx => h x (by simp [hx]))]

theorem splitDash_append (a r : List Char) (h : ∀ c ∈ a, c ≠ '-') :
    splitDash (a ++ '-' :: r) = a :: splitDash r := by
  induction a with
  | nil =>
    show splitDash ('-' :: r) = [] :: splitDash r
    rw [splitDash, if_pos rfl]
  | cons c t ih =>
    have hc : c ≠ '-' := h c (by simp)
    show splitDash (c :: (t ++ '-' :: r)) = (c :: t) :: splitDash r
    rw [splitDash, if_neg hc, ih (fun x hx => h x (by simp [hx]))]

theorem padZeros_natChars_no_dash (k n : Nat) :
    ∀ c ∈ padZeros k (natChars n), c ≠ '-' := by
  intro c hc
  unfold padZeros at hc
  rw [List.mem_append] at hc
  rcases hc with hc | hc
  · rw [List.eq_of_mem_replicate hc]
    decide
  · have := natChars_all_digits n c hc
    intro he
    subst he
    simp at this

theorem padZeros_natChars_ne_nil (k n : Nat) : padZeros k (natChars n) ≠ [] := by
  unfold padZeros
  intro h
  rw [List.append_eq_nil] at h
  exact natChars_ne_nil n h.2

theorem padZeros_natChars_all_digits (k n : Nat) :
    (padZeros k (natChars n)).all Char.isDigit = true := by
  rw [List.all_eq_true]
  intro c hc
  unfold padZeros at hc
  rw [List.mem_append] at hc
  rcases hc with hc | hc
  · rw [List.eq_of_mem_replicate hc]
    decide
  · exact natChars_all_digits n c hc

/-- Any calendar date survives the text round trip: serializing with
`str()` and reparsing with the app's `pd.to_datetime` recovers the same
calendar date. -/
theorem parse_dateChars_round_trip (d : Date) : parseDateChars (dateChars d) = some d := by
  have hsplit : splitDash (dateChars d) =
      [padZeros 4 (natChars d.year), padZeros 2 (natChars d.month),
        padZeros 2 (natChars d.day)] := by
    unfold dateChars
    rw [splitDash_append _ _ (padZeros_natChars_no_dash 4 d.year),
        splitDash_append _ _ (padZeros_natChars_no_dash 2 d.month),
        splitDash_no_dash _ (padZeros_natChars_no_dash 2 d.day)]
  unfold parseDateChars
  rw [hsplit]
  show (if (padZeros 4 (natChars d.year) ≠ [] ∧ padZeros 2 (natChars d.month) ≠ [] ∧
        padZeros 2 (natChars d.day) ≠ [] ∧
        (padZeros 4 (natChars d.year)).all Char.isDigit = true ∧
        (padZeros 2 (natChars d.month)).all Char.isDigit = true ∧
        (padZeros 2 (natChars d.day)).all Char.isDigit = true)
      then some (Date.mk (charsToNat (padZeros 4 (natChars d.year)))
        (charsToNat (padZeros 2 (natChars d.month)))
        (charsToNat (padZeros 2 (natChars d.day))))
      else none) = some d
  rw [if_pos ⟨padZeros_natChars_ne_nil 4 d.year, padZeros_natChars_ne_nil 2 d.month,
      padZeros_natChars_ne_nil 2 d.day, padZeros_natChars_all_digits 4 d.year,
      padZeros_natChars_all_digits 2 d.month, padZeros_natChars_all_digits 2 d.day⟩]
  cases d with
  | mk y m dd =>
    simp [charsToNat_padZeros_natChars]

/-- The serialized date cell of a record: `astype(str)` turns a date into
its ISO text and the missing-date placeholder into the empty string. -/
def dateCell (od : Option Date) : List Char :=
  match od with
  | some d => dateChars d
  | none => []

/-- A record as it sits in the JSON file: the `Date of PR` column has been
converted to text by `astype(str)`; all other fields are serialized
verbatim (JSON round-trips strings and numbers exactly). -/
structure SavedRecord where
  quotationNo : String
  poHuawei : String
  linkedPrSubcon : String
  dateOfPr : List Char
  vendorName : String
  project : String
  siteId : String
  lineItems : String
  poHuaweiUnitPrice : ℚ
  requestedQty : ℤ
  total : ℚ
  poSubconUnitPrice : ℚ
  qty : ℤ
  subTotal : ℚ
  profit : ℚ
  marginPct : ℚ
  status : String
  marginReason : String
deriving DecidableEq, Repr

/-- Lines 57-75 applied to one row. -/
def saveRecord (r : Record) : SavedRecord :=
  { quotationNo := r.quotationNo
    poHuawei := r.poHuawei
    linkedPrSubcon := r.linkedPrSubcon
    dateOfPr := dateCell r.dateOfPr
    vendorName := r.vendorName
    project := r.project
    siteId := r.siteId
    lineItems := r.lineItems
    poHuaweiUnitPrice := r.poHuaweiUnitPrice
    requestedQty := r.requestedQty
    total := r.total
    poSubconUnitPrice := r.poSubconUnitPrice
    qty := r.qty
    subTotal := r.subTotal
    profit := r.profit
    marginPct := r.marginPct
    status := r.status
    marginReason := r.marginReason }

/-- The app's full persisted state. -/
structure AppState where
  df : List Record
  source_filename : String

/-- Contents of `uces_app_data.json`. -/
structure SavedState where
  df : List SavedRecord
  source_filename : String

/-- Lines 57-75: `save_data` serializes the store row by row (dates and
margin reasons via `astype(str)`) together with the remembered filename. -/
def save_data (st : AppState) : SavedState :=
  { df := st.df.map saveRecord, source_filename := st.source_filename }

/-- Lines 77-90: `load_data` reads the JSON file back into a DataFrame;
JSON stores the serialized rows verbatim, so the loaded frame holds
exactly the saved cells (dates still as text, to be reparsed where the
app needs them). -/
def load_data (s : SavedState) : SavedState := s

/-- C4: save followed by load reproduces the record collection field for
field (the loaded rows are exactly the serialized rows, same filename,
same length and order), and every date field re-parses to the same
calendar date it held before saving (`none`, the missing-date
placeholder, re-parses to `none`). -/
theorem save_load_round_trip (st : AppState) :
    (load_data (save_data st)).source_filename = st.source_filename ∧
    (load_data (save_data st)).df = st.df.map saveRecord ∧
    (load_data (save_data st)).df.length = st.df.length ∧
    ∀ r : Record,
      (saveRecord r).quotationNo = r.quotationNo ∧
      (saveRecord r).poHuawei = r.poHuawei ∧
      (saveRecord r).linkedPrSubcon = r.linkedPrSubcon ∧
      (saveRecord r).vendorName = r.vendorName ∧
      (saveRecord r).project = r.project ∧
      (saveRecord r).siteId = r.siteId ∧
      (saveRecord r).lineItems = r.lineItems ∧
      (saveRecord r).poHuaweiUnitPrice = r.poHuaweiUnitPrice ∧
      (saveRecord r).requestedQty = r.requestedQty ∧
      (saveRecord r).total = r.total ∧
      (saveRecord r).poSubconUnitPrice = r.poSubconUnitPrice ∧
      (saveRecord r).qty = r.qty ∧
      (saveRecord r).subTotal = r.subTotal ∧
      (saveRecord r).profit = r.profit ∧
      (saveRecord r).marginPct = r.marginPct ∧
      (saveRecord r).status = r.status ∧
      (saveRecord r).marginReason = r.marginReason ∧
      parseDateChars (saveRecord r).dateOfPr = r.dateOfPr := by
  refine ⟨rfl, rfl, by simp [load_data, save_data], fun r => ?_⟩
  refine ⟨rfl, rfl, rfl, rfl, rfl, rfl, rfl, rfl, rfl, rfl, rfl, rfl, rfl, rfl, rfl, rfl, rfl, ?_⟩
  show parseDateChars (dateCell r.dateOfPr) = r.dateOfPr
  cases hd : r.dateOfPr with
  | none => rfl
  | some d => exact parse_dateChars_round_trip d

/-- The canonical required column set, `init_df().columns.tolist()`
(lines 93-98), in canonical order. -/
def requiredCols : List String :=
  ["Quotation No", "Po Huawei", "Linked PR Subcon", "Date of PR", "Vendor Name",
   "Project", "Site ID", "Line Items", "Po Huawei (Unit Price)", "Requested Qty",
   "Total", "Po Subcon (Unit Price)", "Qty", "Sub Total", "Profit", "Margin%",
   "Status", "Margin Reason"]

/-- Model of Python `str.lower()` on the (ASCII) column names: lower-case
every character. -/
def lowerStr (s : String) : String := String.mk (s.toList.map Char.toLower)

/-- One data row of an uploaded file, keyed by canonical column after the
case-insensitive header remap of lines 160-161.  `none` in a text cell is
an absent or NaN cell, which line 168's `fillna("")` turns into the
empty-string placeholder; the date cell is the raw text
`pd.to_datetime` will coerce (`none` for absent, which coerces to the
missing marker).  The numeric cells (prices, quantities, the four
derived columns) hold the value read from the sheet and are modelled as
present: a BLANK numeric cell is stored by `fillna("")` as the empty
string inside an object-dtype column, a mixed-type store that the typed
record model deliberately does not represent, so such rows are outside
this embedding's domain. -/
structure RawRow where
  quotationNo : Option String
  poHuawei : Option String
  linkedPrSubcon : Option String
  dateOfPr : Option (List Char)
  vendorName : Option String
  project : Option String
  siteId : Option String
  lineItems : Option String
  poHuaweiUnitPrice : ℚ
  requestedQty : ℤ
  total : ℚ
  poSubconUnitPrice : ℚ
  qty : ℤ
  subTotal : ℚ
  profit : ℚ
  marginPct : ℚ
  status : Option String
  marginReason : Option String
deriving DecidableEq, Repr

/-- Lines 163-170 applied to one row of an exact-match upload: the
`Date of PR` cell is coerced with `pd.to_datetime(errors="coerce")`
(unparseable or absent values become the missing-date marker), absent
text cells become empty-string placeholders (`fillna("")`), the columns
are taken in canonical order, and every numeric cell — including the
four derived columns — is adopted verbatim from the file; nothing is
recomputed. -/
def importRow (row : RawRow) : Record :=
  { quotationNo := row.quotationNo.getD ""
    poHuawei := row.poHuawei.getD ""
    linkedPrSubcon := row.linkedPrSubcon.getD ""
    dateOfPr := row.dateOfPr.bind parseDateChars
    vendorName := row.vendorName.getD ""
    project := row.project.getD ""
    siteId := row.siteId.getD ""
    lineItems := row.lineItems.getD ""
    poHuaweiUnitPrice := row.poHuaweiUnitPrice
    requestedQty := row.requestedQty
    total := row.total
    poSubconUnitPrice := row.poSubconUnitPrice
    qty := row.qty
    subTotal := row.subTotal
    profit := row.profit
    marginPct := row.marginPct
    status := row.status.getD ""
    marginReason := row.marginReason.getD "" }

/-- Outcome of the Load File handler. -/
inductive LoadOutcome where
  | replaced (rows : List Record)
  | reconcile
deriving DecidableEq, Repr

/-- Lines 149-176: `cols_match` (every required column name present among
the uploaded headers, case-insensitively) together with at least one data
row leads to adopting the file as the new store; otherwise the handler
falls into the interactive column-mapping (reconciliation) branch. -/
def loadFile (uploadedCols : List String) (rows : List RawRow) : LoadOutcome :=
  if (requiredCols.all fun c =>
        decide (lowerStr c ∈ uploadedCols.map lowerStr)) ∧ rows.length > 0 then
    .replaced (rows.map importRow)
  else .reconcile

/-- An exact-header upload row used as a witness. -/
def rowC9 : RawRow :=
  { quotationNo := some "Q9"
    poHuawei := some "PO-9"
    linkedPrSubcon := none
    dateOfPr := some ('2' :: '0' :: '2' :: '4' :: '-' :: '0' :: '1' :: '-' :: '1' :: '5' :: [])
    vendorName := some "Vendor Z"
    project := some "BD"
    siteId := some "S9"
    lineItems := none
    poHuaweiUnitPrice := 100
    requestedQty := 10
    total := 1000
    poSubconUnitPrice := 65
    qty := 10
    subTotal := 650
    profit := 350
    marginPct := 35
    status := some "Process"
    marginReason := none }

/-- A row whose derived `Total` cell contradicts its inputs: unit price 1,
quantity 1, but Total 5. -/
def badRow : RawRow :=
  { rowC9 with
    poHuaweiUnitPrice := 1
    requestedQty := 1
    total := 5 }

/-- C3 counterexample: the exact-match import path adopts the file's
derived cells verbatim, so a file row with unit price 1, quantity 1 and
Total 5 enters the Record Store as-is, violating Total = price ×
quantity.  Hence derived-field consistency does NOT hold for every record
however it entered the store. -/
theorem derived_consistency_counterexample :
    loadFile requiredCols [badRow] = .replaced [importRow badRow] ∧
    (importRow badRow).poHuaweiUnitPrice = 1 ∧
    (importRow badRow).requestedQty = 1 ∧
    (importRow badRow).total = 5 ∧
    ¬ derivedConsistent (importRow badRow) := by
  refine ⟨by with_unfolding_all decide, by with_unfolding_all decide,
    by with_unfolding_all decide, by with_unfolding_all decide, ?_⟩
  intro hcon
  obtain ⟨h1, -⟩ := hcon
  have h5 : (importRow badRow).total = 5 := by with_unfolding_all decide
  have hp : (importRow badRow).poHuaweiUnitPrice = 1 := by with_unfolding_all decide
  have hq : (importRow badRow).requestedQty = 1 := by with_unfolding_all decide
  rw [h5, hp, hq] at h1
  norm_num at h1

/-- C3 (amended): the derived fields are recomputed on every form
create/update and are never independently editable there, so every record
that entered (or stayed in) the store through the form handlers and the
delete handler is internally consistent; records adopted by import are
taken verbatim from the file and need not be. -/
theorem form_ops_preserve_consistency (s : List Record)
    (hs : ∀ r ∈ s, derivedConsistent r) :
    (∀ inp, ∀ r ∈ commitStore (submitAdd inp s) s, derivedConsistent r) ∧
    (∀ k inp, ∀ r ∈ commitStore (submitEdit k inp s) s, derivedConsistent r) ∧
    (∀ k, ∀ r ∈ commitStore (deleteSelected k s) s, derivedConsistent r) := by
  refine ⟨?_, ?_, ?_⟩
  · intro inp r hr
    unfold submitAdd at hr
    by_cases he : inp.po_huawei = ""
    · rw [if_pos he] at hr
      exact hs r hr
    · rw [if_neg he] at hr
      simp only [commitStore] at hr
      rw [List.mem_append] at hr
      rcases hr with hr | hr
      · exact hs r hr
      · rw [List.mem_singleton] at hr
        subst hr
        exact new_row_consistent inp
  · intro k inp r hr
    unfold submitEdit at hr
    by_cases he : inp.po_huawei = ""
    · rw [if_pos he] at hr
      exact hs r hr
    · rw [if_neg he] at hr
      by_cases hk : k < s.length
      · rw [if_pos hk] at hr
        simp only [commitStore] at hr
        rcases List.mem_or_eq_of_mem_set hr with hr | hr
        · exact hs r hr
        · subst hr
          exact new_row_consistent inp
      · rw [if_neg hk] at hr
        exact hs r hr
  · intro k r hr
    unfold deleteSelected at hr
    by_cases hk : k < s.length
    · rw [if_pos hk] at hr
      simp only [commitStore] at hr
      exact hs r ((List.eraseIdx_sublist s k).subset hr)
    · rw [if_neg hk] at hr
      exact hs r hr

theorem form_ops_preserve_consistency_witness :
    (∀ r ∈ [recA], derivedConsistent r) ∧
    (∀ r ∈ commitStore (submitAdd inpC10 [recA]) [recA], derivedConsistent r) ∧
    (∀ k inp, ∀ r ∈ commitStore (submitEdit k inp [recA]) [recA], derivedConsistent r) ∧
    (∀ k, ∀ r ∈ commitStore (deleteSelected k [recA]) [recA], derivedConsistent r) := by
  have hs : ∀ r ∈ [recA], derivedConsistent r := by
    intro r hr
    rw [List.mem_singleton] at hr
    subst hr
    exact new_row_consistent inpC1
  obtain ⟨h1, h2, h3⟩ := form_ops_preserve_consistency [recA] hs
  exact ⟨hs, h1 inpC10, h2, h3⟩

/-- A token of the regular-expression fragment the model covers: literal
characters and the any-character metacharacter. -/
inductive PatTok where
  | lit (c : Char)
  | dot
deriving DecidableEq, Repr

/-- Model of `re.compile` on the fragment: `.` is the any-character
metacharacter, every other character is a literal. -/
def parsePatL (l : List Char) : List PatTok :=
  l.map fun c => if c = '.' then PatTok.dot else PatTok.lit c

/-- Whether a token matches one character, case-insensitively
(`case=False` sets `re.IGNORECASE`). -/
def tokMatch : PatTok → Char → Bool
  | .lit a, c => a.toLower == c.toLower
  | .dot, _ => true

/-- Whether the pattern matches a prefix of the text. -/
def matchHere : List PatTok → List Char → Bool
  | [], _ => true
  | _ :: _, [] => false
  | t :: p, c :: l => tokMatch t c && matchHere p l

/-- Model of `re.search`: the pattern matches at some position. -/
def reSearch (p : List PatTok) : List Char → Bool
  | [] => matchHere p []
  | c :: l => matchHere p (c :: l) || reSearch p l

/-- Model of `Series.str.contains(pat, case=False, na=False)` on one cell:
pandas treats `pat` as a REGULAR EXPRESSION (`regex=True` default), not a
literal substring. -/
def strContainsRe (pat s : String) : Bool := reSearch (parsePatL pat.toList) s.toList

/-- Spec-side helper: whether `p` is a leading segment of `l`. -/
def leadsWith : List Char → List Char → Bool
  | [], _ => true
  | _ :: _, [] => false
  | a :: p, b :: l => a == b && leadsWith p l

/-- Spec-side helper: whether `p` occurs contiguously inside `l`. -/
def occursIn (p : List Char) : List Char → Bool
  | [] => leadsWith p []
  | c :: l => leadsWith p (c :: l) || occursIn p l

/-- The spec's wording of the text criteria: case-insensitive SUBSTRING
match. -/
def substrCI (needle hay : String) : Bool :=
  occursIn (needle.toList.map Char.toLower) (hay.toList.map Char.toLower)

/-- The filter widgets' state (lines 392-404): `"All"` and `""` are the
inactive sentinels. -/
structure Filters where
  filter_status : String
  search_project : String
  search_vendor : String
  search_site : String
  margin_filter : String
deriving DecidableEq, Repr

/-- Line 416-417: status equality filter. -/
def stage1 (f : Filters) (df : List Record) : List Record :=
  if f.filter_status ≠ "All" then df.filter (fun r => r.status == f.filter_status) else df

/-- Line 419-420: project regex filter (skipped when the intermediate
frame is already empty — `and not filtered_df.empty`). -/
def stage2 (f : Filters) (d : List Record) : List Record :=
  if f.search_project ≠ "" ∧ d ≠ [] then
    d.filter (fun r => strContainsRe f.search_project r.project)
  else d

/-- Line 422-423: vendor regex filter. -/
def stage3 (f : Filters) (d : List Record) : List Record :=
  if f.search_vendor ≠ "" ∧ d ≠ [] then
    d.filter (fun r => strContainsRe f.search_vendor r.vendorName)
  else d

/-- Line 425-426: site regex filter. -/
def stage4 (f : Filters) (d : List Record) : List Record :=
  if f.search_site ≠ "" ∧ d ≠ [] then
    d.filter (fun r => strContainsRe f.search_site r.siteId)
  else d

/-- Lines 428-433: margin bucket filter on the stored (rounded) Margin%. -/
def stage5 (f : Filters) (d : List Record) : List Record :=
  if f.margin_filter = "Loss Risk (<20%)" then
    d.filter (fun r => decide (r.marginPct < 20))
  else if f.margin_filter = "Below Target (20-29%)" then
    d.filter (fun r => decide (20 ≤ r.marginPct) && decide (r.marginPct < 30))
  else if f.margin_filter = "Healthy (≥30%)" then
    d.filter (fun r => decide (30 ≤ r.marginPct))
  else d

/-- Lines 412-433, the FILTER LOGIC block: the successive filters applied
to a copy of the store. -/
def filterEngine (f : Filters) (df : List Record) : List Record :=
  stage5 f (stage4 f (stage3 f (stage2 f (stage1 f df))))

/-- The margin-bucket predicate of both the code and the spec. -/
def marginPass (m : String) (r : Record) : Bool :=
  if m = "Loss Risk (<20%)" then decide (r.marginPct < 20)
  else if m = "Below Target (20-29%)" then
    decide (20 ≤ r.marginPct) && decide (r.marginPct < 30)
  else if m = "Healthy (≥30%)" then decide (30 ≤ r.marginPct)
  else true

/-- The conjunction the code actually evaluates, with regex containment
for the text criteria. -/
def enginePass (f : Filters) (r : Record) : Bool :=
  (if f.filter_status ≠ "All" then r.status == f.filter_status else true) &&
  ((if f.search_project ≠ "" then strContainsRe f.search_project r.project else true) &&
   ((if f.search_vendor ≠ "" then strContainsRe f.search_vendor r.vendorName else true) &&
    ((if f.search_site ≠ "" then strContainsRe f.search_site r.siteId else true) &&
     marginPass f.margin_filter r)))

/-- The conjunction the spec describes, with substring containment for the
text criteria. -/
def specPass (f : Filters) (r : Record) : Bool :=
  (if f.filter_status ≠ "All" then r.status == f.filter_status else true) &&
  ((if f.search_project ≠ "" then substrCI f.search_project r.project else true) &&
   ((if f.search_vendor ≠ "" then substrCI f.search_vendor r.vendorName else true) &&
    ((if f.search_site ≠ "" then substrCI f.search_site r.siteId else true) &&
     marginPass f.margin_filter r)))

theorem filter_and (l : List Record) (p q : Record → Bool) :
    (l.filter p).filter q = l.filter (fun r => p r && q r) := by
  induction l with
  | nil => rfl
  | cons a t ih =>
    by_cases hp : p a
    · by_cases hq : q a
      · simp [List.filter_cons, hp, hq, ih]
      · simp [List.filter_cons, hp, hq, ih]
    · simp [List.filter_cons, hp, ih]

theorem step_text (d : List Record) (c : Prop) [Decidable c] (q : Record → Bool) :
    (if c ∧ d ≠ [] then d.filter q else d) = d.filter (fun r => if c then q r else true) := by
  by_cases hc : c
  · by_cases hd : d = []
    · subst hd
      rw [if_neg (by simp)]
      simp
    · rw [if_pos ⟨hc, hd⟩]
      simp only [if_pos hc]
  · rw [if_neg (fun h => hc h.1)]
    simp only [if_neg hc]
    simp

theorem stage1_eq (f : Filters) (df : List Record) :
    stage1 f df = df.filter
      (fun r => if f.filter_status ≠ "All" then r.status == f.filter_status else true) := by
  unfold stage1
  by_cases hc : f.filter_status ≠ "All"
  · rw [if_pos hc]
    simp only [if_pos hc]
  · rw [if_neg hc]
    simp only [if_neg hc]
    simp

theorem stage2_eq (f : Filters) (d : List Record) :
    stage2 f d = d.filter
      (fun r => if f.search_project ≠ "" then strContainsRe f.search_project r.project
        else true) :=
  step_text d _ _

theorem stage3_eq (f : Filters) (d : List Record) :
    stage3 f d = d.filter
      (fun r => if f.search_vendor ≠ "" then strContainsRe f.search_vendor r.vendorName
        else true) :=
  step_text d _ _

theorem stage4_eq (f : Filters) (d : List Record) :
    stage4 f d = d.filter
      (fun r => if f.search_site ≠ "" then strContainsRe f.search_site r.siteId
        else true) :=
  step_text d _ _

theorem stage5_eq (f : Filters) (d : List Record) :
    stage5 f d = d.filter (marginPass f.margin_filter) := by
  unfold stage5 marginPass
  by_cases h1 : f.margin_filter = "Loss Risk (<20%)"
  · simp only [if_pos h1]
  · simp only [if_neg h1]
    by_cases h2 : f.margin_filter = "Below Target (20-29%)"
    · simp only [if_pos h2]
    · simp only [if_neg h2]
      by_cases h3 : f.margin_filter = "Healthy (≥30%)"
      · simp only [if_pos h3]
      · simp only [if_neg h3]
        simp

theorem filterEngine_eq_filter (f : Filters) (df : List Record) :
    filterEngine f df = df.filter (enginePass f) := by
  unfold filterEngine
  rw [stage1_eq, stage2_eq, stage3_eq, stage4_eq, stage5_eq,
    filter_and, filter_and, filter_and, filter_and]
  rfl

theorem matchHere_lits (p : List Char) (hp : ∀ c ∈ p, c ≠ '.') :
    ∀ l : List Char,
      matchHere (parsePatL p) l = leadsWith (p.map Char.toLower) (l.map Char.toLower) := by
  induction p with
  | nil => intro l; rfl
  | cons a p ih =>
    intro l
    have ha : a ≠ '.' := hp a (by simp)
    have hpl : parsePatL (a :: p) = PatTok.lit a :: parsePatL p := by
      unfold parsePatL
      simp [ha]
    cases l with
    | nil =>
      rw [hpl]
      rfl
    | cons b l =>
      rw [hpl]
      show (tokMatch (PatTok.lit a) b && matchHere (parsePatL p) l) = _
      rw [ih (fun c hc => hp c (by simp [hc]))]
      rfl

theorem reSearch_lits (p : List Char) (hp : ∀ c ∈ p, c ≠ '.') (l : List Char) :
    reSearch (parsePatL p) l = occursIn (p.map Char.toLower) (l.map Char.toLower) := by
  induction l with
  | nil =>
    show matchHere (parsePatL p) [] = leadsWith (p.map Char.toLower) []
    have := matchHere_lits p hp []
    simpa using this
  | cons c l ih =>
    show (matchHere (parsePatL p) (c :: l) || reSearch (parsePatL p) l) = _
    rw [matchHere_lits p hp (c :: l), ih]
    rfl

theorem alnum_ne_dot (c : Char) (h : c.isAlphanum = true) : c ≠ '.' := by
  intro he
  subst he
  exact absurd h (by decide)

theorem contains_eq_substr_of_alnum (t x : String)
    (h : t.toList.all Char.isAlphanum = true) : strContainsRe t x = substrCI t x := by
  unfold strContainsRe substrCI
  exact reSearch_lits t.toList
    (fun c hc => alnum_ne_dot c (List.all_eq_true.mp h c hc)) x.toList

def filtC8 : Filters :=
  { filter_status := "All"
    search_project := ""
    search_vendor := "A.B"
    search_site := ""
    margin_filter := "All" }

def recC8 : Record := { recA with vendorName := "AXB" }

/-- C8 counterexample: the text criteria are passed to
`Series.str.contains` as regular expressions (pandas default
`regex=True`), not as literal substrings.  Searching vendor "A.B" matches
the record with vendor "AXB" (the dot matches any character), so the
engine's output is not the subsequence of records satisfying a
case-insensitive SUBSTRING criterion — that subsequence is empty here. -/
theorem filter_substring_counterexample :
    filterEngine filtC8 [recC8] = [recC8] ∧
    List.filter (specPass filtC8) [recC8] = [] ∧
    substrCI "A.B" "AXB" = false ∧
    strContainsRe "A.B" "AXB" = true := by
  with_unfolding_all decide

/-- C8 (amended): for search texts free of regex metacharacters (here:
alphanumeric), the Filter Engine returns exactly the subsequence of
records satisfying the conjunction of all active criteria — status
equality, case-insensitive substring containment on project, vendor and
site, and the 30/20 margin bucket — in original store order (the result
is a sublist of the store, which is itself never mutated: the engine is a
pure function of a copy); with every criterion at its inactive sentinel
the full store is returned unchanged.  In general the text criteria are
regular-expression containment, not substring containment. -/
theorem filter_engine_amended (f : Filters) (df : List Record)
    (hp : f.search_project.toList.all Char.isAlphanum = true)
    (hv : f.search_vendor.toList.all Char.isAlphanum = true)
    (hs : f.search_site.toList.all Char.isAlphanum = true) :
    filterEngine f df = df.filter (specPass f) ∧
    List.Sublist (filterEngine f df) df ∧
    (f.filter_status = "All" → f.search_project = "" → f.search_vendor = "" →
      f.search_site = "" → f.margin_filter = "All" → filterEngine f df = df) := by
  have hmain : filterEngine f df = df.filter (specPass f) := by
    rw [filterEngine_eq_filter]
    apply List.filter_congr
    intro r _
    unfold enginePass specPass
    rw [contains_eq_substr_of_alnum f.search_project r.project hp,
      contains_eq_substr_of_alnum f.search_vendor r.vendorName hv,
      contains_eq_substr_of_alnum f.search_site r.siteId hs]
  refine ⟨hmain, ?_, ?_⟩
  · rw [hmain]
    exact List.filter_sublist df
  · intro h1 h2 h3 h4 h5
    rw [hmain]
    have hall : ∀ r ∈ df, specPass f r = true := by
      intro r _
      unfold specPass marginPass
      rw [h1, h2, h3, h4, h5]
      simp
    rw [List.filter_congr hall]
    simp

def filtC8w : Filters :=
  { filter_status := "Process"
    search_project := "BD"
    search_vendor := ""
    search_site := ""
    margin_filter := "All" }

theorem filter_engine_amended_witness :
    (filtC8w.search_project.toList.all Char.isAlphanum = true ∧
     filtC8w.search_vendor.toList.all Char.isAlphanum = true ∧
     filtC8w.search_site.toList.all Char.isAlphanum = true) ∧
    (filterEngine filtC8w [recA, recC8] = List.filter (specPass filtC8w) [recA, recC8] ∧
     List.Sublist (filterEngine filtC8w [recA, recC8]) [recA, recC8] ∧
     (filtC8w.filter_status = "All" → filtC8w.search_project = "" →
      filtC8w.search_vendor = "" → filtC8w.search_site = "" →
      filtC8w.margin_filter = "All" → filterEngine filtC8w [recA, recC8] = [recA, recC8])) :=
  ⟨⟨by decide, by decide, by decide⟩,
    filter_engine_amended filtC8w [recA, recC8] (by decide) (by decide) (by decide)⟩

end UCES
